import Mathlib

/-!
Verification of the questionnaire-scanning core (detection_cases.py,
reperage.py, detect0.py) against its natural-language specification.

The image-processing primitives of OpenCV/NumPy (thresholding, contour
extraction, connected components, column sums) are opaque: the embedding
takes their outputs as explicit data (contour descriptors, blob statistics,
column-density profiles, box interiors) and models every line of Python
that manipulates those outputs.  Python floats are modelled by exact
rationals, Python `int()` truncation by `pytrunc`, and Python truthiness
of `int`/`None` values explicitly where the code relies on it.
-/

/-- Python `int(q)` on a float value: truncation toward zero. -/
def pytrunc (q : ℚ) : ℤ := if 0 ≤ q then ⌊q⌋ else ⌈q⌉

/-- Python `round` to the nearest integer, halves to even (banker's rounding). -/
def pyRoundHalfEven (q : ℚ) : ℤ :=
  if q - ⌊q⌋ < 1/2 then ⌊q⌋
  else if 1/2 < q - ⌊q⌋ then ⌊q⌋ + 1
  else if ⌊q⌋ % 2 = 0 then ⌊q⌋ else ⌊q⌋ + 1

/-- Python `round(q, 2)`. -/
def pyRound2 (q : ℚ) : ℚ := (pyRoundHalfEven (q * 100) : ℚ) / 100

/-- Minimum of a list of integers (`min(distances)` in Python); 0 on `[]`,
a case Python never reaches. -/
def listMin (l : List ℤ) : ℤ :=
  match l with
  | [] => 0
  | a :: rest => rest.foldl min a

/-- `distances.index(min(distances))`: first index attaining the minimum. -/
def idxOfMin (l : List ℤ) : ℕ := l.findIdx (fun v => v = listMin l)

/-- Maximum of a list of rationals (`projection.max()`); 0 on `[]`. -/
def listMaxQ (l : List ℚ) : ℚ :=
  match l with
  | [] => 0
  | a :: rest => rest.foldl max a

/-- `np.mean` of a list of rationals. -/
def moyenne (l : List ℚ) : ℚ := l.sum / (l.length : ℚ)

-- ============================================================
-- Data model
-- ============================================================

/-- A detected checkbox record, as produced by `detecter_cases`
(detection_cases.py): keys x, y, w, h, aire, ratio. -/
structure Case where
  x : ℤ
  y : ℤ
  w : ℤ
  h : ℤ
  aire : ℤ
  ratio : ℚ
deriving DecidableEq, Repr

/-- A template box geometry (one entry of a question's `cases` list). -/
structure TCase where
  x : ℤ
  y : ℤ
  w : ℤ
  h : ℤ
deriving DecidableEq, Repr, Inhabited

/-- A raw contour as delivered by `cv2.findContours` +
`cv2.approxPolyDP` + `cv2.boundingRect` + `cv2.contourArea`:
`approxLen` is the vertex count of the polygon approximation,
x/y/w/h the bounding rectangle, `aire` the (float) contour area. -/
structure Contour where
  approxLen : ℕ
  x : ℤ
  y : ℤ
  w : ℤ
  h : ℤ
  aire : ℚ
deriving DecidableEq, Repr

-- ============================================================
-- detection_cases.py
-- ============================================================

/-- `ratio = w / h if h > 0 else 0` (detection_cases.py line 36). -/
def ratioOf (cnt : Contour) : ℚ := if cnt.h > 0 then (cnt.w : ℚ) / (cnt.h : ℚ) else 0

/-- The record appended for a kept contour (detection_cases.py lines 39-46):
`int(aire)` truncates, `round(ratio, 2)` is Python rounding. -/
def caseOfContour (cnt : Contour) : Case :=
  { x := cnt.x, y := cnt.y, w := cnt.w, h := cnt.h,
    aire := pytrunc cnt.aire, ratio := pyRound2 (ratioOf cnt) }

/-- `detecter_cases` (detection_cases.py lines 9-48) with its default
thresholds aire_min=1000, aire_max=2500, ratio_min=0.85, ratio_max=1.4:
keep 4-vertex approximations whose area and aspect ratio lie inside the
(inclusive) bounds. -/
def detecter_cases (contours : List Contour) : List Case :=
  contours.filterMap fun cnt =>
    if cnt.approxLen = 4 then
      if (1000 : ℚ) ≤ cnt.aire ∧ cnt.aire ≤ 2500
          ∧ (85/100 : ℚ) ≤ ratioOf cnt ∧ ratioOf cnt ≤ 14/10 then
        some (caseOfContour cnt)
      else none
    else none

/-- Center x-coordinate of a case: `c['x'] + c['w'] / 2` (Python true division). -/
def centre_x (c : Case) : ℚ := (c.x : ℚ) + (c.w : ℚ) / 2

/-- Center y-coordinate of a case: `c['y'] + c['h'] / 2`. -/
def centre_y (c : Case) : ℚ := (c.y : ℚ) + (c.h : ℚ) / 2

/-- Squared Euclidean distance between two case centers.  The Python code
compares `sqrt dist2 < 10`; over nonnegative reals this is `dist2 < 100`. -/
def dist2 (a b : Case) : ℚ :=
  (centre_x a - centre_x b) ^ 2 + (centre_y a - centre_y b) ^ 2

/-- Sort key of `sorted(cases, key=lambda c: c['aire'], reverse=True)`:
descending area (stable). -/
def ordAire (a b : Case) : Prop := b.aire ≤ a.aire

instance : DecidableRel ordAire := fun a b => by unfold ordAire; infer_instance

instance : IsTotal Case ordAire := ⟨fun a b => le_total b.aire a.aire⟩

instance : IsTrans Case ordAire := ⟨fun _ _ _ h h' => le_trans h' h⟩

/-- The inner duplicate test of `dedupliquer_cases`: is `case` within
(strictly less than) 10px of some already-accepted case? -/
def est_doublon (cases_uniques : List Case) (case : Case) : Bool :=
  cases_uniques.any fun cu => dist2 case cu < 10 ^ 2

/-- `dedupliquer_cases` (detection_cases.py lines 51-90) with its default
distance_min=10: greedy largest-first suppression. -/
def dedupliquer_cases (cases : List Case) : List Case :=
  if cases = [] then []
  else
    (cases.insertionSort ordAire).foldl
      (fun cases_uniques case =>
        if est_doublon cases_uniques case then cases_uniques
        else cases_uniques ++ [case])
      []

/-- Sort key of `sorted(cases, key=lambda c: (c['y'], c['x']))`:
lexicographic on (y, x). -/
def ordYX (a b : Case) : Prop := a.y < b.y ∨ (a.y = b.y ∧ a.x ≤ b.x)

instance : DecidableRel ordYX := fun a b => by unfold ordYX; infer_instance

instance : IsTotal Case ordYX := by
  constructor
  intro a b
  rcases lt_trichotomy a.y b.y with h | h | h
  · exact Or.inl (Or.inl h)
  · rcases le_total a.x b.x with h' | h'
    · exact Or.inl (Or.inr ⟨h, h'⟩)
    · exact Or.inr (Or.inr ⟨h.symm, h'⟩)
  · exact Or.inr (Or.inl h)

instance : IsTrans Case ordYX := by
  constructor
  intro a b c hab hbc
  rcases hab with h | ⟨he, hx⟩
  · rcases hbc with h' | ⟨he', _⟩
    · exact Or.inl (h.trans h')
    · exact Or.inl (he' ▸ h)
  · rcases hbc with h' | ⟨he', hx'⟩
    · exact Or.inl (he ▸ h')
    · exact Or.inr ⟨he.trans he', hx.trans hx'⟩

/-- Sort key of `sorted(ligne_courante, key=lambda c: c['x'])`. -/
def ordX (a b : Case) : Prop := a.x ≤ b.x

instance : DecidableRel ordX := fun a b => by unfold ordX; infer_instance

instance : IsTotal Case ordX := ⟨fun a b => le_total a.x b.x⟩

instance : IsTrans Case ordX := ⟨fun _ _ _ h h' => le_trans h h'⟩

/-- The main loop of `regrouper_par_lignes` (detection_cases.py lines
114-127), including the final flush of `ligne_courante`. -/
def regrouper_aux (tolerance_y : ℤ) :
    List Case → List (List Case) → List Case → ℤ → List (List Case)
  | [], lignes, ligne_courante, _ =>
    if ligne_courante = [] then lignes
    else lignes ++ [ligne_courante.insertionSort ordX]
  | case :: rest, lignes, ligne_courante, y_reference =>
    if |case.y - y_reference| ≤ tolerance_y then
      regrouper_aux tolerance_y rest lignes (ligne_courante ++ [case]) y_reference
    else
      regrouper_aux tolerance_y rest (lignes ++ [ligne_courante.insertionSort ordX])
        [case] case.y

/-- `regrouper_par_lignes` (detection_cases.py lines 93-129) with its
default tolerance_y=50. -/
def regrouper_par_lignes (cases : List Case) : List (List Case) :=
  if cases = [] then []
  else
    match cases.insertionSort ordYX with
    | [] => []
    | c0 :: rest => regrouper_aux 50 rest [] [c0] c0.y

/-- `detecter_cases_completes` (detection_cases.py lines 132-145). -/
def detecter_cases_completes (contours : List Contour) : List Case :=
  ((dedupliquer_cases (detecter_cases contours)).insertionSort ordYX)

-- ============================================================
-- reperage.py : trouver_bords_ligne_echelle
-- ============================================================

/-- `projection = projection / projection.max()` when the max is positive
(reperage.py lines 290-291). -/
def normaliser_projection (projection : List ℚ) : List ℚ :=
  if 0 < listMaxQ projection then projection.map fun v => v / listMaxQ projection
  else projection

/-- The sliding window `projection[a:a+20]` (largeur_min = 20). -/
def fenetre (p : List ℚ) (a : ℕ) : List ℚ := (p.drop a).take 20

/-- The left-edge search (reperage.py lines 299-304): first `x` in
`range(len(projection) - 20)` whose 20-wide window has mean density
strictly above the threshold 0.15. -/
def chercher_bord_gauche (p : List ℚ) : Option ℕ :=
  (List.range (p.length - 20)).find? fun x => 15/100 < moyenne (fenetre p x)

/-- The right-edge search (reperage.py lines 308-313): first `x` in
`range(len(projection)-1, 20, -1)` whose window `projection[x-20:x]`
has mean density strictly above 0.15. -/
def chercher_bord_droit (p : List ℚ) : Option ℕ :=
  ((List.range' 21 (p.length - 21)).reverse).find? fun x =>
    15/100 < moyenne (fenetre p (x - 20))

/-- `trouver_bords_ligne_echelle` (reperage.py lines 256-315), modelled at
the level of the raw column-density projection of the ±20px band (the crop,
binarization and column summation of lines 276-287 are the opaque image
primitives that produce `projection`).  The final line reproduces the
Python truthiness test `if x_gauche and x_droite` exactly: `None` and the
integer `0` are both falsy there. -/
def trouver_bords_ligne_echelle (projection : List ℚ) : Option (ℕ × ℕ) :=
  let p := normaliser_projection projection
  let x_gauche := chercher_bord_gauche p
  let x_droite := chercher_bord_droit p
  match x_gauche, x_droite with
  | some g, some d => if g ≠ 0 ∧ d ≠ 0 then some (g, d) else none
  | _, _ => none

-- ============================================================
-- detect0.py : constants, scale offset, scale scoring
-- ============================================================

def TOLERANCE_X : ℤ := 200

def SEUIL_REMPLISSAGE : ℚ := 1/2

def MIN_COMPOSANTES : ℕ := 1

def MARGE_CROP : ℤ := 250

def AIRE_MIN_BLOB : ℤ := 200

def LARGEUR_MAX_CHIFFRE : ℤ := 45

/-- One landmark point (x, y). -/
structure Point where
  x : ℤ
  y : ℤ
deriving DecidableEq, Repr

/-- A detected scale: `{'gauche': {'x','y'}, 'droite': {'x','y'}}`. -/
structure Echelle where
  gauche : Point
  droite : Point
deriving DecidableEq, Repr

/-- `calculer_dx` (detect0.py lines 54-58): 0 when either scale is
missing, otherwise the difference of the left-edge x coordinates. -/
def calculer_dx : Option Echelle → Option Echelle → ℤ
  | none, _ => 0
  | _, none => 0
  | some echelle_template, some echelle_reponse =>
      echelle_reponse.gauche.x - echelle_template.gauche.x

/-- A raw connected component of the analysis band as delivered by
`cv2.connectedComponentsWithStats` (detect0.py lines 113-122): integer
bounding-box statistics and the (float) centroid. -/
structure RawBlob where
  x : ℤ
  y : ℤ
  w : ℤ
  h : ℤ
  area : ℤ
  cxq : ℚ
  cyq : ℚ
deriving DecidableEq, Repr

/-- Graduation position `x_gauche_crop + int(score * largeur_graduation)`
(detect0.py line 156). -/
def x_grad (x_gauche_crop : ℤ) (largeur_graduation : ℚ) (score : ℕ) : ℤ :=
  x_gauche_crop + pytrunc ((score : ℚ) * largeur_graduation)

/-- The 6 distances of a centroid to the graduations (detect0.py lines 154-158). -/
def distances_graduations (x_gauche_crop : ℤ) (lg : ℚ) (cx : ℤ) : List ℤ :=
  (List.range 6).map fun score => |cx - x_grad x_gauche_crop lg score|

/-- `score_proche = distances.index(min(distances))` (detect0.py line 160). -/
def score_proche (x_gauche_crop : ℤ) (lg : ℚ) (cx : ℤ) : ℕ :=
  idxOfMin (distances_graduations x_gauche_crop lg cx)

/-- The scoring core of `coter_echelle` (detect0.py lines 73-210), in crop
coordinates.  `largeur_totale = x_droite - x_gauche` equals the difference
of the crop coordinates, since both are shifted by the same `x_crop_min`.
`stats` is the opaque output of the connected-component pass on the
analysis band; blobs are kept when `area > 200`, split at width 45, each
wide blob votes for its nearest graduation (first index on ties), a
graduation counts at most once, and the result is returned sorted. -/
def coter_echelle (x_gauche_crop x_droite_crop : ℤ) (stats : List RawBlob) : List ℕ :=
  let largeur_graduation : ℚ := ((x_droite_crop - x_gauche_crop : ℤ) : ℚ) / 5
  let blobs_info := stats.filter fun b => AIRE_MIN_BLOB < b.area
  let blobs_crayonnages := blobs_info.filter fun b => LARGEUR_MAX_CHIFFRE < b.w
  let scores_detectes := blobs_crayonnages.foldl
    (fun scores b =>
      let s := score_proche x_gauche_crop largeur_graduation (pytrunc b.cxq)
      if s ∈ scores then scores else scores ++ [s])
    []
  scores_detectes.insertionSort (· ≤ ·)

-- ============================================================
-- detect0.py : analyser_case
-- ============================================================

/-- Opaque pixel observations of a box interior after the fixed-threshold
binarization at 180 (detect0.py line 232): the `np.count_nonzero` of the
binarized interior and the areas of its non-background connected
components (`cv2.connectedComponentsWithStats`, labels 1..n-1). -/
structure InterieurObs where
  inkCount : ℕ
  composantes : List ℤ
deriving DecidableEq, Repr

/-- Interior width after the 25% margin: `w - 2 * int(w * 0.25)`. -/
def w_interieur (case : Case) : ℤ := case.w - 2 * pytrunc ((case.w : ℚ) * (25/100))

/-- Interior height after the 25% margin: `h - 2 * int(h * 0.25)`. -/
def h_interieur (case : Case) : ℤ := case.h - 2 * pytrunc ((case.h : ℚ) * (25/100))

/-- `ratio_noir = np.count_nonzero(binaire) / (w_int * h_int)` (line 235). -/
def ratio_noir (case : Case) (obs : InterieurObs) : ℚ :=
  (obs.inkCount : ℚ) / ((w_interieur case : ℚ) * (h_interieur case : ℚ))

/-- `taille_min = (w_int * h_int) * 0.1` (detect0.py line 243). -/
def taille_min (case : Case) : ℚ :=
  ((w_interieur case : ℚ) * (h_interieur case : ℚ)) * (1/10)

/-- The classification outcome of `analyser_case`: `('noire', ratio)`,
`('traits', nb)`, or `('vide', None)`. -/
inductive ResultatCase where
  | noire (ratio : ℚ)
  | traits (nb : ℕ)
  | vide
deriving DecidableEq, Repr

/-- `analyser_case` (detect0.py lines 215-256): filled-by-density when the
ink ratio strictly exceeds 0.5, otherwise filled-by-strokes when at least
`MIN_COMPOSANTES` = 1 component strictly exceeds 10% of the interior area,
otherwise empty. -/
def analyser_case (case : Case) (obs : InterieurObs) : ResultatCase :=
  if SEUIL_REMPLISSAGE < ratio_noir case obs then .noire (ratio_noir case obs)
  else if MIN_COMPOSANTES ≤
      (obs.composantes.filter fun area : ℤ => taille_min case < (area : ℚ)).length then
    .traits ((obs.composantes.filter fun area : ℤ => taille_min case < (area : ℚ)).length)
  else .vide

-- ============================================================
-- detect0.py : matching and answer assembly
-- ============================================================

/-- `trouver_cases_template_manquantes` (detect0.py lines 304-323): with no
empty box on the row, every template index is missing; otherwise an index
is missing when no empty box lies strictly within `TOLERANCE_X` = 200px of
its expected position `template_x + dx`. -/
def trouver_cases_template_manquantes
    (ligne_vides : List Case) (cases_template : List TCase) (dx : ℤ) : List ℕ :=
  if ligne_vides = [] then List.range cases_template.length
  else
    cases_template.enum.filterMap fun p =>
      if ligne_vides.any (fun case_det => |case_det.x - (p.2.x + dx)| < TOLERANCE_X)
      then none
      else some p.1

/-- One entry of the ordered answer list of a question
(detect0.py lines 488-525). -/
structure Reponse where
  index : ℕ
  reponse : String
  x : ℤ
  y : ℤ
  w : ℤ
  h : ℤ
deriving DecidableEq, Repr, Inhabited

/-- The `y_ligne` of a question (detect0.py lines 469-473):
`int(mean of the empty boxes' y)` when the row is nonempty, otherwise the
first template box's y (0 when the template has no boxes). -/
def y_ligne_de (ligne_vides : List Case) (cases_template : List TCase) : ℤ :=
  match ligne_vides with
  | [] =>
    match cases_template with
    | [] => 0
    | t :: _ => t.y
  | _ =>
    pytrunc (((ligne_vides.map Case.y).sum : ℚ) / (ligne_vides.length : ℚ))

/-- The ordered answer list of one question (detect0.py lines 478-525):
indices in `indices_manquants` are reported `'cochée'` at the shifted
template geometry; other indices are reported `'vide'`, with the geometry
of the first matching empty box (fallback: shifted template geometry). -/
def reponses_ordonnees
    (ligne_vides : List Case) (cases_template : List TCase) (dx : ℤ) : List Reponse :=
  let indices_manquants := trouver_cases_template_manquantes ligne_vides cases_template dx
  let y_ligne := y_ligne_de ligne_vides cases_template
  cases_template.enum.map fun p =>
    let idx := p.1
    let case_tmpl := p.2
    if idx ∈ indices_manquants then
      { index := idx, reponse := "cochée", x := case_tmpl.x + dx,
        y := y_ligne, w := case_tmpl.w, h := case_tmpl.h }
    else
      match ligne_vides.find?
          (fun case => |case.x - (case_tmpl.x + dx)| < TOLERANCE_X) with
      | some case_vide =>
        { index := idx, reponse := "vide", x := case_vide.x,
          y := case_vide.y, w := case_vide.w, h := case_vide.h }
      | none =>
        { index := idx, reponse := "vide", x := case_tmpl.x + dx,
          y := y_ligne, w := case_tmpl.w, h := case_tmpl.h }

-- ============================================================
-- detect0.py : analyser_page and the batch loop of main
-- ============================================================

/-- The template page: optional scale landmark plus the `contenu` mapping
`question_k` identifiers to their expected box lists. -/
structure TemplatePage where
  echelle : Option Echelle
  contenu : List (String × List TCase)
deriving DecidableEq, Repr

/-- The opaque image observations a page analysis consumes: the result of
`detecter_echelle_seule`, the connected components of the scale band
(input of `coter_echelle`), and the detected boxes of
`detecter_cases_completes`, each paired with its interior observations
(input of `analyser_case`). -/
structure ImageAbstraite where
  echelle_detectee : Option Echelle
  stats_bande : List RawBlob
  cases_detectees : List (Case × InterieurObs)
deriving DecidableEq, Repr

/-- The per-page output record of `analyser_page`: either
`{'page', 'erreur'}` or `{'page', 'decalage_x', 'score_echelle',
'questions'}`. -/
inductive PageRecord where
  | erreur (page : ℕ) (msg : String)
  | ok (page : ℕ) (decalage_x : ℤ) (score_echelle : List ℕ)
      (questions : List (String × List Reponse))
deriving DecidableEq, Repr

/-- The question data carried by a page record; an error record carries none. -/
def questions_de : PageRecord → List (String × List Reponse)
  | .erreur _ _ => []
  | .ok _ _ _ questions => questions

/-- `analyser_page` (detect0.py lines 405-558): on a failed scale
detection, return the error record immediately; otherwise compute the
offset, score the scale (in crop coordinates, lines 86-94), classify every
detected box, group the empty ones into rows, and assemble one ordered
answer list per template question (`nb_questions` = min of the row count
and the template question count, skipping absent `question_k` keys). -/
def analyser_page (image : ImageAbstraite) (page_num : ℕ)
    (template_page : TemplatePage) : PageRecord :=
  match image.echelle_detectee with
  | none => .erreur page_num "Échelle non détectée"
  | some echelle_reponse =>
    let dx := calculer_dx template_page.echelle (some echelle_reponse)
    let x_crop_min := max 0 (echelle_reponse.gauche.x - MARGE_CROP)
    let scores_echelle := coter_echelle (echelle_reponse.gauche.x - x_crop_min)
      (echelle_reponse.droite.x - x_crop_min) image.stats_bande
    let cases_vides :=
      (image.cases_detectees.filter fun p => analyser_case p.1 p.2 = .vide).map Prod.fst
    let lignes_vides := regrouper_par_lignes cases_vides
    let nb_questions := min lignes_vides.length template_page.contenu.length
    let questions_json := (List.range nb_questions).filterMap fun k =>
      let q_id := "question_" ++ toString (k + 1)
      match template_page.contenu.lookup q_id with
      | none => none
      | some cases_template =>
        some (q_id, reponses_ordonnees (lignes_vides.getD k []) cases_template dx)
    .ok page_num dx scores_echelle questions_json

/-- The batch loop of `main` (detect0.py lines 594-597): every page is
analysed with the same template page, page numbers starting at 1, and
every page record is appended to the result. -/
def analyser_batch (template_page : TemplatePage)
    (pages : List ImageAbstraite) : List PageRecord :=
  pages.enum.map fun p => analyser_page p.2 (p.1 + 1) template_page

-- ============================================================
-- Specification-side definition for the row-grouping claim
-- ============================================================

/-- Modelled from the spec: the loop of the row-grouping rule as worded in
the spec — "start a new row whenever a box's y exceeds the current row's
reference y (the first box's y in that row) by more than 50px; sort each
completed row left-to-right".  It differs syntactically from
`regrouper_aux` only in its continuation test, `y ≤ reference + 50`
instead of `|y - reference| ≤ 50`. -/
def spec_regrouper_aux :
    List Case → List (List Case) → List Case → ℤ → List (List Case)
  | [], lignes, ligne_courante, _ =>
    if ligne_courante = [] then lignes
    else lignes ++ [ligne_courante.insertionSort ordX]
  | case :: rest, lignes, ligne_courante, y_reference =>
    if case.y ≤ y_reference + 50 then
      spec_regrouper_aux rest lignes (ligne_courante ++ [case]) y_reference
    else
      spec_regrouper_aux rest (lignes ++ [ligne_courante.insertionSort ordX])
        [case] case.y

/-- Modelled from the spec: "sort accepted boxes by (y,x); start a new row
whenever a box's y exceeds the current row's reference y by more than
50px; sort each completed row left-to-right". -/
def spec_group_rows (cases : List Case) : List (List Case) :=
  if cases = [] then []
  else
    match cases.insertionSort ordYX with
    | [] => []
    | c0 :: rest => spec_regrouper_aux rest [] [c0] c0.y

-- ============================================================
-- Concrete fixtures for the testable examples
-- ============================================================

/-- A 40×40 detected box at (x, y). -/
def boite (x y : ℤ) : Case := { x := x, y := y, w := 40, h := 40, aire := 1600, ratio := 1 }

/-- The row-grouping example: boxes at y = {100, 105, 102, 400, 403}. -/
def exemple_lignes : List Case :=
  [boite 10 100, boite 20 105, boite 30 102, boite 40 400, boite 50 403]

/-- A pencil blob of width 50 (> 45) centered exactly on graduation 3 of a
scale with left crop edge 0 and right crop edge 1000. -/
def blob_crayon : RawBlob :=
  { x := 580, y := 5, w := 50, h := 30, area := 300, cxq := 600, cyq := 10 }

/-- Template question with 4 expected boxes at x = {100, 300, 500, 700}. -/
def exemple_template4 : List TCase :=
  [⟨100, 500, 40, 40⟩, ⟨300, 500, 40, 40⟩, ⟨500, 500, 40, 40⟩, ⟨700, 500, 40, 40⟩]

/-- Empty boxes detected only at x = {100+dx, 500+dx, 700+dx} for dx = 37. -/
def exemple_vides37 : List Case := [boite 137 500, boite 537 500, boite 737 500]

/-- Deduplication example: the larger of two overlapping candidates. -/
def exemple_grande : Case := { x := 0, y := 0, w := 10, h := 10, aire := 200, ratio := 1 }

/-- Deduplication example: the smaller candidate, center 5px away. -/
def exemple_petite : Case := { x := 3, y := 4, w := 10, h := 10, aire := 100, ratio := 1 }

/-- A page on which scale detection fails. -/
def page_sans_echelle : ImageAbstraite := ⟨none, [], []⟩

/-- A page on which scale detection succeeds. -/
def page_avec_echelle : ImageAbstraite := ⟨some ⟨⟨100, 50⟩, ⟨1100, 50⟩⟩, [], []⟩

/-- A template page with no scale and no questions. -/
def template_vide : TemplatePage := ⟨none, []⟩

/-- A printed-digit blob of width 40 (≤ 45), retained by area but excluded
from scoring by its width. -/
def blob_chiffre : RawBlob :=
  { x := 590, y := 5, w := 40, h := 55, area := 300, cxq := 600, cyq := 10 }

-- ============================================================
-- Theorems
-- ============================================================

/-- Claim C7: the page offset dx equals the scan's scale-left x minus the
template's scale-left x, and equals 0 whenever either scale is absent. -/
theorem calculer_dx_spec :
    (∀ e : Option Echelle, calculer_dx none e = 0) ∧
    (∀ e : Option Echelle, calculer_dx e none = 0) ∧
    (∀ t r : Echelle,
      calculer_dx (some t) (some r) = r.gauche.x - t.gauche.x) := by
  refine ⟨fun e => ?_, fun e => ?_, fun t r => rfl⟩ <;> cases e <;> rfl

theorem listMaxQ_replicate (n : ℕ) (hn : n ≠ 0) (a : ℚ) :
    listMaxQ (List.replicate n a) = a := by
  have hfold : ∀ m : ℕ, (List.replicate m a).foldl max a = a := by
    intro m
    induction m with
    | zero => rfl
    | succ k ih => simpa [List.replicate_succ, max_self] using ih
  cases n with
  | zero => exact absurd rfl hn
  | succ k => simpa [listMaxQ, List.replicate_succ] using hfold k

theorem normaliser_replicate_one (n : ℕ) (hn : n ≠ 0) :
    normaliser_projection (List.replicate n (1 : ℚ)) = List.replicate n 1 := by
  unfold normaliser_projection
  rw [listMaxQ_replicate n hn]
  rw [if_pos one_pos]
  simp

theorem moyenne_replicate (n : ℕ) (hn : n ≠ 0) (a : ℚ) :
    moyenne (List.replicate n a) = a := by
  unfold moyenne
  rw [List.sum_replicate, List.length_replicate, nsmul_eq_mul]
  exact mul_div_cancel_left₀ a (Nat.cast_ne_zero.2 hn)

theorem fenetre_replicate (n k : ℕ) (a : ℚ) :
    fenetre (List.replicate n a) k = List.replicate (min 20 (n - k)) a := by
  unfold fenetre
  rw [List.drop_replicate, List.take_replicate]

theorem chercher_bord_gauche_const :
    chercher_bord_gauche (List.replicate 25 (1 : ℚ)) = some 0 := by
  unfold chercher_bord_gauche
  rw [List.length_replicate]
  rw [show List.range (25 - 20) = [0, 1, 2, 3, 4] from by decide]
  refine List.find?_cons_of_pos _ ?_
  show decide ((15 : ℚ)/100 < moyenne (fenetre (List.replicate 25 (1 : ℚ)) 0)) = true
  rw [fenetre_replicate]
  norm_num [moyenne_replicate 20 (by norm_num)]

theorem chercher_bord_droit_const :
    chercher_bord_droit (List.replicate 25 (1 : ℚ)) = some 24 := by
  unfold chercher_bord_droit
  rw [List.length_replicate]
  rw [show (List.range' 21 (25 - 21)).reverse = [24, 23, 22, 21] from by decide]
  refine List.find?_cons_of_pos _ ?_
  show decide ((15 : ℚ)/100 < moyenne (fenetre (List.replicate 25 (1 : ℚ)) (24 - 20))) = true
  rw [fenetre_replicate]
  norm_num [moyenne_replicate 20 (by norm_num)]

/-- Claim C8 (code bug): on a 25-column profile of constant density 1,
the left sliding-window search succeeds at column 0 and the right one at
column 24 — qualifying windows with mean density > 0.15 exist on both
sides — yet `trouver_bords_ligne_echelle` returns `None`, because the
Python truthiness test `if x_gauche and x_droite` treats the found left
edge `0` as false. -/
theorem trouver_bords_zero_left_bug :
    chercher_bord_gauche (normaliser_projection (List.replicate 25 (1 : ℚ))) = some 0 ∧
    chercher_bord_droit (normaliser_projection (List.replicate 25 (1 : ℚ))) = some 24 ∧
    trouver_bords_ligne_echelle (List.replicate 25 (1 : ℚ)) = none := by
  have hn : normaliser_projection (List.replicate 25 (1 : ℚ)) = List.replicate 25 1 :=
    normaliser_replicate_one 25 (by norm_num)
  refine ⟨?_, ?_, ?_⟩
  · rw [hn]; exact chercher_bord_gauche_const
  · rw [hn]; exact chercher_bord_droit_const
  · unfold trouver_bords_ligne_echelle
    simp only [hn, chercher_bord_gauche_const, chercher_bord_droit_const]
    simp

/-- Claim C6: a contour is kept if and only if its polygon approximation
has exactly 4 vertices, its area lies in [1000, 2500] (bounds inclusive)
and its width/height ratio lies in [0.85, 1.4] (bounds inclusive); every
returned box is the record built from such a contour. -/
theorem detecter_cases_spec (contours : List Contour) (c : Case) :
    c ∈ detecter_cases contours ↔
      ∃ cnt ∈ contours, cnt.approxLen = 4 ∧
        (1000 : ℚ) ≤ cnt.aire ∧ cnt.aire ≤ 2500 ∧
        (85/100 : ℚ) ≤ ratioOf cnt ∧ ratioOf cnt ≤ 14/10 ∧
        c = caseOfContour cnt := by
  unfold detecter_cases
  rw [List.mem_filterMap]
  constructor
  · rintro ⟨cnt, hmem, hc⟩
    by_cases h4 : cnt.approxLen = 4
    · rw [if_pos h4] at hc
      by_cases hb : (1000 : ℚ) ≤ cnt.aire ∧ cnt.aire ≤ 2500
          ∧ (85/100 : ℚ) ≤ ratioOf cnt ∧ ratioOf cnt ≤ 14/10
      · rw [if_pos hb] at hc
        exact ⟨cnt, hmem, h4, hb.1, hb.2.1, hb.2.2.1, hb.2.2.2,
          (Option.some_inj.1 hc).symm⟩
      · rw [if_neg hb] at hc
        exact Option.noConfusion hc
    · rw [if_neg h4] at hc
      exact Option.noConfusion hc
  · rintro ⟨cnt, hmem, h4, ha1, ha2, hr1, hr2, rfl⟩
    exact ⟨cnt, hmem, by rw [if_pos h4, if_pos ⟨ha1, ha2, hr1, hr2⟩]⟩

theorem pytrunc_intCast (n : ℤ) : pytrunc (n : ℚ) = n := by
  unfold pytrunc
  by_cases h : (0 : ℚ) ≤ (n : ℚ)
  · rw [if_pos h, Int.floor_intCast]
  · rw [if_neg h, Int.ceil_intCast]

theorem w_interieur_boite : w_interieur (boite 0 0) = 20 := by
  unfold w_interieur boite
  rw [show (((40 : ℤ) : ℚ) * (25/100)) = ((10 : ℤ) : ℚ) by norm_num, pytrunc_intCast]
  decide

theorem h_interieur_boite : h_interieur (boite 0 0) = 20 := by
  unfold h_interieur boite
  rw [show (((40 : ℤ) : ℚ) * (25/100)) = ((10 : ℤ) : ℚ) by norm_num, pytrunc_intCast]
  decide

/-- Claim C2: the classifier returns filled-by-density iff the ink ratio
strictly exceeds 0.5, else filled-by-strokes iff some connected component
strictly exceeds 10% of the interior area, else empty; at the boundary,
an interior at exactly ratio 0.5 (200 ink pixels of 400) is not
filled-by-density, while ratio 0.51 is. -/
theorem analyser_case_spec :
    (∀ (case : Case) (obs : InterieurObs),
      ((∃ q, analyser_case case obs = .noire q) ↔
        SEUIL_REMPLISSAGE < ratio_noir case obs) ∧
      ((∃ n, analyser_case case obs = .traits n) ↔
        ratio_noir case obs ≤ SEUIL_REMPLISSAGE ∧
          ∃ a ∈ obs.composantes, taille_min case < (a : ℚ)) ∧
      (analyser_case case obs = .vide ↔
        ratio_noir case obs ≤ SEUIL_REMPLISSAGE ∧
          ∀ a ∈ obs.composantes, (a : ℚ) ≤ taille_min case)) ∧
    analyser_case (boite 0 0) ⟨200, []⟩ = .vide ∧
    analyser_case (boite 0 0) ⟨204, []⟩ = .noire (51/100) := by
  refine ⟨?_, ?_, ?_⟩
  · intro case obs
    unfold analyser_case
    by_cases h : SEUIL_REMPLISSAGE < ratio_noir case obs
    · rw [if_pos h]
      refine ⟨⟨fun _ => h, fun _ => ⟨_, rfl⟩⟩, ?_, ?_⟩
      · exact ⟨fun hc => ResultatCase.noConfusion hc.choose_spec,
          fun hrhs => absurd hrhs.1 (not_le.2 h)⟩
      · exact ⟨fun hc => ResultatCase.noConfusion hc,
          fun hrhs => absurd hrhs.1 (not_le.2 h)⟩
    · rw [if_neg h]
      have hle : ratio_noir case obs ≤ SEUIL_REMPLISSAGE := not_lt.1 h
      by_cases h2 : MIN_COMPOSANTES ≤
          (obs.composantes.filter fun area : ℤ => taille_min case < (area : ℚ)).length
      · rw [if_pos h2]
        have h2' : 0 <
            (obs.composantes.filter fun area : ℤ => taille_min case < (area : ℚ)).length :=
          h2
        have hex : ∃ a ∈ obs.composantes, taille_min case < (a : ℚ) := by
          obtain ⟨a, ha⟩ := List.length_pos_iff_exists_mem.1 h2'
          have hm := List.mem_filter.1 ha
          exact ⟨a, hm.1, by simpa using hm.2⟩
        refine ⟨?_, ⟨fun _ => ⟨hle, hex⟩, fun _ => ⟨_, rfl⟩⟩, ?_⟩
        · exact ⟨fun hc => ResultatCase.noConfusion hc.choose_spec,
            fun hc => absurd hc h⟩
        · refine ⟨fun hc => ResultatCase.noConfusion hc, ?_⟩
          rintro ⟨-, hall⟩
          obtain ⟨a, hmem, hlt⟩ := hex
          exact absurd (hall a hmem) (not_le.2 hlt)
      · rw [if_neg h2]
        have hall : ∀ a ∈ obs.composantes, (a : ℚ) ≤ taille_min case := by
          intro a ha
          by_contra hgt
          push_neg at hgt
          have hmem : a ∈ obs.composantes.filter
              fun area : ℤ => taille_min case < (area : ℚ) :=
            List.mem_filter.2 ⟨ha, by simpa using hgt⟩
          exact h2 (List.length_pos_iff_exists_mem.2 ⟨a, hmem⟩)
        refine ⟨?_, ?_, ⟨fun _ => ⟨hle, hall⟩, fun _ => rfl⟩⟩
        · exact ⟨fun hc => ResultatCase.noConfusion hc.choose_spec,
            fun hc => absurd hc h⟩
        · refine ⟨fun hc => ResultatCase.noConfusion hc.choose_spec, ?_⟩
          rintro ⟨-, a, hmem, hlt⟩
          exact absurd (hall a hmem) (not_le.2 hlt)
  · have hr : ratio_noir (boite 0 0) ⟨200, []⟩ = 1/2 := by
      unfold ratio_noir
      rw [w_interieur_boite, h_interieur_boite]
      norm_num
    unfold analyser_case
    rw [hr, if_neg (by norm_num [SEUIL_REMPLISSAGE])]
    simp [MIN_COMPOSANTES]
  · have hr : ratio_noir (boite 0 0) ⟨204, []⟩ = 51/100 := by
      unfold ratio_noir
      rw [w_interieur_boite, h_interieur_boite]
      norm_num
    unfold analyser_case
    rw [hr, if_pos (by norm_num [SEUIL_REMPLISSAGE])]

theorem dist2_comm (a b : Case) : dist2 a b = dist2 b a := by
  unfold dist2
  ring

theorem est_doublon_iff (acc : List Case) (c : Case) :
    est_doublon acc c = true ↔ ∃ cu ∈ acc, dist2 c cu < 100 := by
  unfold est_doublon
  rw [List.any_eq_true]
  constructor
  · rintro ⟨cu, hmem, hlt⟩
    exact ⟨cu, hmem, by simpa using hlt⟩
  · rintro ⟨cu, hmem, hlt⟩
    exact ⟨cu, hmem, by simpa using hlt⟩

theorem dedup_foldl_sublist (l : List Case) :
    ∀ acc : List Case,
      (l.foldl (fun cases_uniques case =>
        if est_doublon cases_uniques case then cases_uniques
        else cases_uniques ++ [case]) acc).Sublist (acc ++ l) := by
  induction l with
  | nil => intro acc; simp
  | cons c rest ih =>
    intro acc
    simp only [List.foldl_cons]
    by_cases h : est_doublon acc c
    · rw [if_pos h]
      exact (ih acc).trans (List.Sublist.append_left (List.sublist_cons_self c rest) acc)
    · rw [if_neg h]
      have := ih (acc ++ [c])
      rwa [List.append_assoc, List.singleton_append] at this

theorem dedup_foldl_mem (l : List Case) :
    ∀ (acc : List Case) (a : Case), a ∈ acc →
      a ∈ l.foldl (fun cases_uniques case =>
        if est_doublon cases_uniques case then cases_uniques
        else cases_uniques ++ [case]) acc := by
  induction l with
  | nil => intro acc a ha; simpa using ha
  | cons c rest ih =>
    intro acc a ha
    simp only [List.foldl_cons]
    by_cases h : est_doublon acc c
    · rw [if_pos h]; exact ih acc a ha
    · rw [if_neg h]; exact ih (acc ++ [c]) a (List.mem_append_left _ ha)

theorem dedup_foldl_pairwise (l : List Case) :
    ∀ acc : List Case, acc.Pairwise (fun a b => ¬ dist2 a b < 100) →
      (l.foldl (fun cases_uniques case =>
        if est_doublon cases_uniques case then cases_uniques
        else cases_uniques ++ [case]) acc).Pairwise (fun a b => ¬ dist2 a b < 100) := by
  induction l with
  | nil => intro acc hacc; simpa using hacc
  | cons c rest ih =>
    intro acc hacc
    simp only [List.foldl_cons]
    by_cases h : est_doublon acc c
    · rw [if_pos h]; exact ih acc hacc
    · rw [if_neg h]
      refine ih (acc ++ [c]) ?_
      rw [List.pairwise_append]
      refine ⟨hacc, List.pairwise_singleton _ _, ?_⟩
      intro a hmem b hb hlt
      rw [List.mem_singleton] at hb
      refine h ((est_doublon_iff acc c).2 ⟨a, hmem, ?_⟩)
      rw [dist2_comm]
      rwa [hb] at hlt

theorem dedup_foldl_reject (l : List Case) :
    ∀ (acc : List Case) (c : Case), c ∈ l →
      c ∉ l.foldl (fun cases_uniques case =>
        if est_doublon cases_uniques case then cases_uniques
        else cases_uniques ++ [case]) acc →
      ∃ u ∈ l.foldl (fun cases_uniques case =>
        if est_doublon cases_uniques case then cases_uniques
        else cases_uniques ++ [case]) acc, dist2 c u < 100 := by
  induction l with
  | nil => intro acc c hc; exact absurd hc (by simp)
  | cons c0 rest ih =>
    intro acc c hc hnot
    simp only [List.foldl_cons] at hnot ⊢
    by_cases h : est_doublon acc c0
    · rw [if_pos h] at hnot ⊢
      rcases List.mem_cons.1 hc with rfl | hc'
      · obtain ⟨cu, hmem, hlt⟩ := (est_doublon_iff acc c).1 h
        exact ⟨cu, dedup_foldl_mem rest acc cu hmem, hlt⟩
      · exact ih acc c hc' hnot
    · rw [if_neg h] at hnot ⊢
      rcases List.mem_cons.1 hc with rfl | hc'
      · exact absurd (dedup_foldl_mem rest (acc ++ [c]) c
          (List.mem_append_right _ (List.mem_singleton_self c))) hnot
      · exact ih (acc ++ [c0]) c hc' hnot

/-- Claim C4: deduplication processes candidates in descending-area order
(the result is a sublist of the area-descending sort), every two retained
candidates are at squared center distance ≥ 100 (Euclidean distance
≥ 10px), a candidate is only dropped when some retained candidate is
strictly within 10px of it, and of two candidates with centers closer than
10px, exactly the larger-area one survives, whatever the input order. -/
theorem dedupliquer_cases_spec :
    (∀ cases : List Case,
      (dedupliquer_cases cases).Sublist (cases.insertionSort ordAire) ∧
      (dedupliquer_cases cases).Pairwise (fun a b => 100 ≤ dist2 a b) ∧
      (∀ c ∈ cases, c ∉ dedupliquer_cases cases →
        ∃ u ∈ dedupliquer_cases cases, dist2 c u < 100)) ∧
    (∀ c1 c2 : Case, dist2 c1 c2 < 100 → c2.aire < c1.aire →
      dedupliquer_cases [c1, c2] = [c1] ∧ dedupliquer_cases [c2, c1] = [c1]) := by
  constructor
  · intro cases
    by_cases hnil : cases = []
    · subst hnil
      refine ⟨by simp [dedupliquer_cases], by simp [dedupliquer_cases], by simp⟩
    · unfold dedupliquer_cases
      rw [if_neg hnil]
      refine ⟨by simpa using dedup_foldl_sublist (cases.insertionSort ordAire) [], ?_, ?_⟩
      · have hp := dedup_foldl_pairwise (cases.insertionSort ordAire) [] (by simp)
        exact hp.imp fun hab => not_lt.1 hab
      · intro c hc hnot
        have hc' : c ∈ cases.insertionSort ordAire :=
          (List.mem_insertionSort ordAire).2 hc
        exact dedup_foldl_reject (cases.insertionSort ordAire) [] c hc' hnot
  · intro c1 c2 hd ha
    have hord : ordAire c1 c2 := le_of_lt ha
    have hnord : ¬ ordAire c2 c1 := not_le.2 ha
    have hd' : est_doublon [c1] c2 = true :=
      (est_doublon_iff [c1] c2).2 ⟨c1, List.mem_singleton_self c1, by rwa [dist2_comm]⟩
    have hnd : est_doublon [] c1 = false := by
      unfold est_doublon; simp
    constructor
    · unfold dedupliquer_cases
      rw [if_neg (by simp)]
      rw [show List.insertionSort ordAire [c1, c2] = [c1, c2] by
        simp [List.insertionSort, List.orderedInsert, hord]]
      simp [hnd, hd']
    · unfold dedupliquer_cases
      rw [if_neg (by simp)]
      rw [show List.insertionSort ordAire [c2, c1] = [c1, c2] by
        simp [List.insertionSort, List.orderedInsert, hnord]]
      simp [hnd, hd']

theorem dedupliquer_cases_spec_witness :
    dedupliquer_cases [exemple_grande, exemple_petite] = [exemple_grande] ∧
    dedupliquer_cases [exemple_petite, exemple_grande] = [exemple_grande] :=
  dedupliquer_cases_spec.2 exemple_grande exemple_petite
    (by norm_num [dist2, centre_x, centre_y, exemple_grande, exemple_petite])
    (by norm_num [exemple_grande, exemple_petite])

theorem regrouper_aux_flatten_perm (tol : ℤ) (rest : List Case) :
    ∀ (lignes : List (List Case)) (cur : List Case) (y : ℤ),
      (regrouper_aux tol rest lignes cur y).flatten.Perm
        (lignes.flatten ++ (cur ++ rest)) := by
  induction rest with
  | nil =>
    intro lignes cur y
    by_cases h : cur = []
    · subst h
      simp [regrouper_aux]
    · unfold regrouper_aux
      rw [if_neg h]
      rw [List.flatten_append]
      simp only [List.flatten_cons, List.flatten_nil, List.append_nil]
      exact (List.perm_insertionSort ordX cur).append_left lignes.flatten
  | cons c rest ih =>
    intro lignes cur y
    unfold regrouper_aux
    by_cases h : |c.y - y| ≤ tol
    · rw [if_pos h]
      have := ih lignes (cur ++ [c]) y
      rwa [List.append_assoc, List.singleton_append] at this
    · rw [if_neg h]
      refine (ih (lignes ++ [cur.insertionSort ordX]) [c] c.y).trans ?_
      rw [List.flatten_append]
      simp only [List.flatten_cons, List.flatten_nil, List.append_nil,
        List.singleton_append]
      have hp :=
        ((List.perm_insertionSort ordX cur).append_left lignes.flatten).append_right
          (c :: rest)
      simpa [List.append_assoc] using hp

/-- Claim C10: row grouping partitions its input — the concatenation of
the returned rows is a permutation of the input box list (no box dropped
or duplicated) — and the empty input yields no rows. -/
theorem regrouper_par_lignes_partition :
    (∀ cases : List Case, (regrouper_par_lignes cases).flatten.Perm cases) ∧
    regrouper_par_lignes [] = [] := by
  refine ⟨?_, rfl⟩
  intro cases
  by_cases h : cases = []
  · subst h; simp [regrouper_par_lignes]
  · unfold regrouper_par_lignes
    rw [if_neg h]
    rcases hs : cases.insertionSort ordYX with _ | ⟨c0, rest⟩
    · have hp := List.perm_insertionSort ordYX cases
      rw [hs] at hp
      exact absurd hp.symm.eq_nil h
    · have hj := regrouper_aux_flatten_perm 50 rest [] [c0] c0.y
      have hp := List.perm_insertionSort ordYX cases
      rw [hs] at hp
      refine hj.trans ?_
      simpa using hp

theorem regrouper_aux_sorted (tol : ℤ) (rest : List Case) :
    ∀ (lignes : List (List Case)) (cur : List Case) (y : ℤ),
      (∀ l ∈ lignes, l.Sorted ordX) →
      ∀ l ∈ regrouper_aux tol rest lignes cur y, l.Sorted ordX := by
  induction rest with
  | nil =>
    intro lignes cur y hl l hmem
    unfold regrouper_aux at hmem
    by_cases h : cur = []
    · rw [if_pos h] at hmem
      exact hl l hmem
    · rw [if_neg h] at hmem
      rcases List.mem_append.1 hmem with h' | h'
      · exact hl l h'
      · rw [List.mem_singleton] at h'
        subst h'
        exact List.sorted_insertionSort ordX cur
  | cons c rest ih =>
    intro lignes cur y hl l hmem
    unfold regrouper_aux at hmem
    by_cases h : |c.y - y| ≤ tol
    · rw [if_pos h] at hmem
      exact ih lignes (cur ++ [c]) y hl l hmem
    · rw [if_neg h] at hmem
      refine ih (lignes ++ [cur.insertionSort ordX]) [c] c.y ?_ l hmem
      intro l' hl'
      rcases List.mem_append.1 hl' with h' | h'
      · exact hl l' h'
      · rw [List.mem_singleton] at h'
        subst h'
        exact List.sorted_insertionSort ordX cur

theorem regrouper_aux_eq_spec (rest : List Case) :
    ∀ (lignes : List (List Case)) (cur : List Case) (y : ℤ),
      rest.Sorted ordYX → (∀ c ∈ rest, y ≤ c.y) →
      regrouper_aux 50 rest lignes cur y = spec_regrouper_aux rest lignes cur y := by
  induction rest with
  | nil => intro lignes cur y _ _; rfl
  | cons c rest ih =>
    intro lignes cur y hs hy
    have hcy : y ≤ c.y := hy c (List.mem_cons_self c rest)
    have hrest : rest.Sorted ordYX := (List.pairwise_cons.1 hs).2
    have hc_le : ∀ c' ∈ rest, c.y ≤ c'.y := by
      intro c' hc'
      rcases (List.pairwise_cons.1 hs).1 c' hc' with h' | ⟨he, _⟩
      · exact le_of_lt h'
      · exact le_of_eq he
    have hiff : (|c.y - y| ≤ 50) ↔ (c.y ≤ y + 50) := by
      rw [abs_le]
      omega
    unfold regrouper_aux spec_regrouper_aux
    by_cases h : c.y ≤ y + 50
    · rw [if_pos (hiff.2 h), if_pos h]
      exact ih lignes (cur ++ [c]) y hrest
        (fun c' hc' => hy c' (List.mem_cons_of_mem c hc'))
    · rw [if_neg (fun hh => h (hiff.1 hh)), if_neg h]
      exact ih (lignes ++ [cur.insertionSort ordX]) [c] c.y hrest hc_le

/-- Claim C5: row grouping agrees everywhere with the spec's rule — sort
by (y, x), start a new row exactly when a box's y exceeds the current
row's reference y (the y of the row's first box) by more than 50px — every
returned row is sorted x-ascending, and the example boxes at
y = {100, 105, 102, 400, 403} group into exactly 2 rows of sizes 3 and 2. -/
theorem regrouper_par_lignes_spec :
    (∀ cases : List Case, regrouper_par_lignes cases = spec_group_rows cases) ∧
    (∀ cases : List Case, ∀ l ∈ regrouper_par_lignes cases, l.Sorted ordX) ∧
    (regrouper_par_lignes exemple_lignes).map List.length = [3, 2] := by
  refine ⟨?_, ?_, by decide⟩
  · intro cases
    unfold regrouper_par_lignes spec_group_rows
    by_cases h : cases = []
    · rw [if_pos h, if_pos h]
    · rw [if_neg h, if_neg h]
      rcases hs : cases.insertionSort ordYX with _ | ⟨c0, rest⟩
      · rfl
      · have hsort : (c0 :: rest).Sorted ordYX := by
          rw [← hs]
          exact List.sorted_insertionSort ordYX cases
        have hrest : rest.Sorted ordYX := (List.pairwise_cons.1 hsort).2
        have hy : ∀ c ∈ rest, c0.y ≤ c.y := by
          intro c hc
          rcases (List.pairwise_cons.1 hsort).1 c hc with h' | ⟨he, _⟩
          · exact le_of_lt h'
          · exact le_of_eq he
        exact regrouper_aux_eq_spec rest [] [c0] c0.y hrest hy
  · intro cases l hl
    unfold regrouper_par_lignes at hl
    by_cases h : cases = []
    · rw [if_pos h] at hl
      exact absurd hl (List.not_mem_nil l)
    · rw [if_neg h] at hl
      rcases hs : cases.insertionSort ordYX with _ | ⟨c0, rest⟩
      · rw [hs] at hl
        exact absurd hl (List.not_mem_nil l)
      · rw [hs] at hl
        exact regrouper_aux_sorted 50 rest [] [c0] c0.y (by simp) l hl

theorem regrouper_par_lignes_spec_witness :
    [boite 10 100, boite 20 105, boite 30 102] ∈ regrouper_par_lignes exemple_lignes ∧
    ([boite 10 100, boite 20 105, boite 30 102] : List Case).Sorted ordX :=
  ⟨by decide, regrouper_par_lignes_spec.2.1 exemple_lignes
    [boite 10 100, boite 20 105, boite 30 102] (by decide)⟩

theorem scores_foldl_mem {α : Type} (f : α → ℕ) (l : List α) :
    ∀ (acc : List ℕ) (s : ℕ),
      (s ∈ l.foldl (fun scores b =>
        if f b ∈ scores then scores else scores ++ [f b]) acc) ↔
      (s ∈ acc ∨ ∃ b ∈ l, f b = s) := by
  induction l with
  | nil => intro acc s; simp
  | cons c rest ih =>
    intro acc s
    simp only [List.foldl_cons]
    by_cases h : f c ∈ acc
    · rw [if_pos h, ih acc s]
      constructor
      · rintro (h' | ⟨b, hb, hf⟩)
        · exact Or.inl h'
        · exact Or.inr ⟨b, List.mem_cons_of_mem c hb, hf⟩
      · rintro (h' | ⟨b, hb, hf⟩)
        · exact Or.inl h'
        · rcases List.mem_cons.1 hb with rfl | hb'
          · exact Or.inl (hf ▸ h)
          · exact Or.inr ⟨b, hb', hf⟩
    · rw [if_neg h, ih (acc ++ [f c]) s]
      constructor
      · rintro (h' | ⟨b, hb, hf⟩)
        · rcases List.mem_append.1 h' with h'' | h''
          · exact Or.inl h''
          · rw [List.mem_singleton] at h''
            exact Or.inr ⟨c, List.mem_cons_self c rest, h''.symm⟩
        · exact Or.inr ⟨b, List.mem_cons_of_mem c hb, hf⟩
      · rintro (h' | ⟨b, hb, hf⟩)
        · exact Or.inl (List.mem_append_left _ h')
        · rcases List.mem_cons.1 hb with rfl | hb'
          · exact Or.inl (List.mem_append_right _ (hf ▸ List.mem_singleton_self (f b)))
          · exact Or.inr ⟨b, hb', hf⟩

theorem scores_foldl_nodup {α : Type} (f : α → ℕ) (l : List α) :
    ∀ acc : List ℕ, acc.Nodup →
      (l.foldl (fun scores b =>
        if f b ∈ scores then scores else scores ++ [f b]) acc).Nodup := by
  induction l with
  | nil => intro acc ha; simpa using ha
  | cons c rest ih =>
    intro acc ha
    simp only [List.foldl_cons]
    by_cases h : f c ∈ acc
    · rw [if_pos h]; exact ih acc ha
    · rw [if_neg h]
      refine ih (acc ++ [f c]) ?_
      rw [List.nodup_append]
      refine ⟨ha, List.nodup_singleton _, ?_⟩
      intro a h1 h2
      rw [List.mem_singleton] at h2
      subst h2
      exact h h1

theorem filter_wide_area (stats : List RawBlob) :
    ((stats.filter fun b => LARGEUR_MAX_CHIFFRE < b.w).filter fun b =>
        AIRE_MIN_BLOB < b.area).filter (fun b => LARGEUR_MAX_CHIFFRE < b.w) =
      (stats.filter fun b => AIRE_MIN_BLOB < b.area).filter
        fun b => LARGEUR_MAX_CHIFFRE < b.w := by
  rw [List.filter_filter, List.filter_filter, List.filter_filter]
  refine List.filter_congr fun a _ => ?_
  by_cases hw : LARGEUR_MAX_CHIFFRE < a.w <;> by_cases ha : AIRE_MIN_BLOB < a.area <;>
    simp [hw, ha]

theorem x_grad_intCast (xg m : ℤ) (s : ℕ) :
    x_grad xg ((m : ℤ) : ℚ) s = xg + (s : ℤ) * m := by
  unfold x_grad
  rw [show ((s : ℕ) : ℚ) * ((m : ℤ) : ℚ) = ((((s : ℤ) * m : ℤ)) : ℚ) by push_cast; ring,
    pytrunc_intCast]

/-- Claim C3: every retained blob (area > 200) of width ≤ 45 is excluded
from scale scoring regardless of position (dropping all narrow blobs never
changes the result, and a single narrow blob scores nothing); a graduation
index is scored iff some retained blob of width > 45 has it as nearest
graduation; each graduation counts at most once (no duplicates) and the
result is sorted ascending; a wide blob centered exactly on graduation 3
of a 6-graduation scale yields `[3]`. -/
theorem coter_echelle_spec :
    (∀ (xg xd : ℤ) (stats : List RawBlob),
      coter_echelle xg xd (stats.filter fun b => LARGEUR_MAX_CHIFFRE < b.w) =
        coter_echelle xg xd stats) ∧
    (∀ (xg xd : ℤ) (stats : List RawBlob) (s : ℕ),
      s ∈ coter_echelle xg xd stats ↔
        ∃ b ∈ stats, AIRE_MIN_BLOB < b.area ∧ LARGEUR_MAX_CHIFFRE < b.w ∧
          score_proche xg (((xd - xg : ℤ) : ℚ) / 5) (pytrunc b.cxq) = s) ∧
    (∀ (xg xd : ℤ) (stats : List RawBlob),
      (coter_echelle xg xd stats).Sorted (· ≤ ·) ∧
      (coter_echelle xg xd stats).Nodup) ∧
    coter_echelle 0 1000 [blob_crayon] = [3] ∧
    (∀ (xg xd : ℤ) (b : RawBlob), b.w ≤ LARGEUR_MAX_CHIFFRE →
      coter_echelle xg xd [b] = []) := by
  refine ⟨?_, ?_, ?_, ?_, ?_⟩
  · intro xg xd stats
    simp only [coter_echelle]
    rw [filter_wide_area]
  · intro xg xd stats s
    simp only [coter_echelle]
    rw [List.mem_insertionSort]
    rw [scores_foldl_mem
      (fun b => score_proche xg (((xd - xg : ℤ) : ℚ) / 5) (pytrunc b.cxq))
      ((stats.filter fun b => AIRE_MIN_BLOB < b.area).filter
        fun b => LARGEUR_MAX_CHIFFRE < b.w) [] s]
    simp only [List.not_mem_nil, false_or, List.mem_filter, decide_eq_true_eq]
    constructor
    · rintro ⟨b, ⟨⟨hb, ha⟩, hw⟩, hf⟩
      exact ⟨b, hb, ha, hw, hf⟩
    · rintro ⟨b, hb, ha, hw, hf⟩
      exact ⟨b, ⟨⟨hb, ha⟩, hw⟩, hf⟩
  · intro xg xd stats
    simp only [coter_echelle]
    refine ⟨List.sorted_insertionSort _ _, ?_⟩
    rw [(List.perm_insertionSort _ _).nodup_iff]
    exact scores_foldl_nodup _ _ [] List.nodup_nil
  · have hfil : (([blob_crayon].filter fun b => AIRE_MIN_BLOB < b.area).filter
        fun b => LARGEUR_MAX_CHIFFRE < b.w) = [blob_crayon] := by decide
    have hcx : pytrunc blob_crayon.cxq = 600 := by
      show pytrunc ((600 : ℚ)) = 600
      rw [show (600 : ℚ) = ((600 : ℤ) : ℚ) by norm_num, pytrunc_intCast]
    have h200 : ((1000 - 0 : ℤ) : ℚ) / 5 = ((200 : ℤ) : ℚ) := by push_cast; norm_num
    have hsp : score_proche 0 ((200 : ℤ) : ℚ) 600 = 3 := by
      unfold score_proche distances_graduations
      rw [show List.range 6 = [0, 1, 2, 3, 4, 5] from rfl]
      simp only [List.map_cons, List.map_nil, x_grad_intCast]
      decide
    simp only [coter_echelle]
    rw [h200, hfil]
    simp only [List.foldl_cons, List.foldl_nil, hcx, hsp]
    rw [if_neg (List.not_mem_nil 3)]
    rfl
  · intro xg xd b hw
    simp only [coter_echelle]
    have hfil : (([b].filter fun bb => AIRE_MIN_BLOB < bb.area).filter
        fun bb => LARGEUR_MAX_CHIFFRE < bb.w) = [] := by
      by_cases ha : AIRE_MIN_BLOB < b.area
      · simp [List.filter_cons, ha, not_lt.2 hw]
      · simp [List.filter_cons, ha]
    rw [hfil]
    rfl

theorem coter_echelle_spec_witness :
    blob_chiffre.w ≤ LARGEUR_MAX_CHIFFRE ∧
    coter_echelle 0 1000 [blob_chiffre] = [] :=
  ⟨by decide, coter_echelle_spec.2.2.2.2 0 1000 blob_chiffre (by decide)⟩

theorem mem_trouver_iff (ligne_vides : List Case) (cases_template : List TCase)
    (dx : ℤ) (i : ℕ) :
    i ∈ trouver_cases_template_manquantes ligne_vides cases_template dx ↔
      i < cases_template.length ∧
      ∀ cd ∈ ligne_vides,
        TOLERANCE_X ≤ |cd.x - ((cases_template.getD i default).x + dx)| := by
  unfold trouver_cases_template_manquantes
  by_cases hl : ligne_vides = []
  · rw [if_pos hl]
    subst hl
    simp [List.mem_range]
  · rw [if_neg hl, List.mem_filterMap]
    constructor
    · rintro ⟨⟨j, t⟩, hmem, hj⟩
      by_cases hany : ligne_vides.any fun cd => |cd.x - (t.x + dx)| < TOLERANCE_X
      · rw [if_pos hany] at hj
        exact Option.noConfusion hj
      · rw [if_neg hany] at hj
        obtain rfl : j = i := Option.some_inj.1 hj
        obtain ⟨hi, ht⟩ := List.mem_enum hmem
        refine ⟨hi, ?_⟩
        intro cd hcd
        rw [List.getD_eq_getElem cases_template default hi, ← ht]
        by_contra hlt
        rw [not_le] at hlt
        exact hany (List.any_eq_true.2 ⟨cd, hcd, by simpa using hlt⟩)
    · rintro ⟨hi, hall⟩
      refine ⟨(i, cases_template.getD i default), ?_, ?_⟩
      · have hget : cases_template.enum[i]? = some (i, cases_template.getD i default) := by
          rw [List.getElem?_enum, List.getElem?_eq_getElem hi,
            List.getD_eq_getElem cases_template default hi]
          rfl
        exact List.getElem?_mem hget
      · rw [if_neg ?_]
        intro hany
        obtain ⟨cd, hcd, hlt⟩ := List.any_eq_true.1 hany
        exact absurd (hall cd hcd) (not_le.2 (by simpa using hlt))

/-- Claim C1: in the ordered answer list of a question, position idx
carries index idx and is reported 'cochée' if and only if no
empty-classified box of the row lies strictly within the 200px tolerance
of the expected position template_x + dx (otherwise it is reported
'vide'); with 4 template boxes at x = {100, 300, 500, 700} and empty boxes
detected only at x = {100+dx, 500+dx, 700+dx} (dx = 37), the ordered
answers are [vide, cochée, vide, vide]. -/
theorem reponses_ordonnees_spec :
    (∀ (ligne_vides : List Case) (cases_template : List TCase) (dx : ℤ),
      (reponses_ordonnees ligne_vides cases_template dx).length =
        cases_template.length ∧
      ∀ i, i < cases_template.length →
        ((reponses_ordonnees ligne_vides cases_template dx).getD i default).index = i ∧
        (((reponses_ordonnees ligne_vides cases_template dx).getD i default).reponse
            = "cochée" ↔
          ∀ cd ∈ ligne_vides,
            TOLERANCE_X ≤ |cd.x - ((cases_template.getD i default).x + dx)|) ∧
        (((reponses_ordonnees ligne_vides cases_template dx).getD i default).reponse
            = "cochée" ∨
         ((reponses_ordonnees ligne_vides cases_template dx).getD i default).reponse
            = "vide")) ∧
    ((reponses_ordonnees exemple_vides37 exemple_template4 37).map
      fun r => (r.index, r.reponse)) =
      [(0, "vide"), (1, "cochée"), (2, "vide"), (3, "vide")] := by
  refine ⟨?_, by decide⟩
  intro ligne_vides cases_template dx
  constructor
  · simp [reponses_ordonnees, List.enum_length]
  · intro i hi
    have key : (reponses_ordonnees ligne_vides cases_template dx).getD i default =
        (if i ∈ trouver_cases_template_manquantes ligne_vides cases_template dx then
          { index := i, reponse := "cochée",
            x := (cases_template.getD i default).x + dx,
            y := y_ligne_de ligne_vides cases_template,
            w := (cases_template.getD i default).w,
            h := (cases_template.getD i default).h }
        else
          match ligne_vides.find?
              (fun case => |case.x - ((cases_template.getD i default).x + dx)|
                < TOLERANCE_X) with
          | some case_vide =>
            { index := i, reponse := "vide", x := case_vide.x,
              y := case_vide.y, w := case_vide.w, h := case_vide.h }
          | none =>
            { index := i, reponse := "vide",
              x := (cases_template.getD i default).x + dx,
              y := y_ligne_de ligne_vides cases_template,
              w := (cases_template.getD i default).w,
              h := (cases_template.getD i default).h }) := by
      simp only [reponses_ordonnees]
      rw [List.getD_eq_getElem?_getD, List.getElem?_map, List.getElem?_enum,
        List.getElem?_eq_getElem hi, List.getD_eq_getElem cases_template default hi]
      rfl
    rw [key]
    by_cases hm : i ∈ trouver_cases_template_manquantes ligne_vides cases_template dx
    · rw [if_pos hm]
      refine ⟨rfl, ?_, Or.inl rfl⟩
      exact ⟨fun _ => ((mem_trouver_iff ligne_vides cases_template dx i).1 hm).2,
        fun _ => rfl⟩
    · rw [if_neg hm]
      have hrhs : ¬ ∀ cd ∈ ligne_vides,
          TOLERANCE_X ≤ |cd.x - ((cases_template.getD i default).x + dx)| :=
        fun hall =>
          hm ((mem_trouver_iff ligne_vides cases_template dx i).2 ⟨hi, hall⟩)
      rcases hfind : ligne_vides.find?
          (fun case => |case.x - ((cases_template.getD i default).x + dx)|
            < TOLERANCE_X) with _ | case_vide <;>
        rw [hfind] <;> dsimp only <;>
        exact ⟨rfl,
          ⟨fun hc => absurd hc (by decide), fun hall => absurd hall hrhs⟩,
          Or.inr rfl⟩

theorem reponses_ordonnees_spec_witness :
    ((reponses_ordonnees exemple_vides37 exemple_template4 37).getD 1 default).reponse
      = "cochée" := by
  have h := (reponses_ordonnees_spec.1 exemple_vides37 exemple_template4 37).2 1 (by decide)
  exact h.2.1.2 (by decide)

/-- Claim C9: the batch loop analyses every page (one record per page, in
order, each depending only on its own page and the shared template); a
page whose scale detection fails yields a record carrying the explicit
error marker and no question data, while any page whose scale is detected
yields a normal record — a failure never aborts the batch. -/
theorem analyser_batch_spec (template_page : TemplatePage)
    (pages : List ImageAbstraite) :
    (analyser_batch template_page pages).length = pages.length ∧
    ∀ (i : ℕ) (h : i < pages.length),
      (analyser_batch template_page pages)[i]? =
        some (analyser_page pages[i] (i + 1) template_page) ∧
      (pages[i].echelle_detectee = none →
        analyser_page pages[i] (i + 1) template_page =
          .erreur (i + 1) "Échelle non détectée" ∧
        questions_de (analyser_page pages[i] (i + 1) template_page) = []) ∧
      (∀ e, pages[i].echelle_detectee = some e →
        ∃ dx s q,
          analyser_page pages[i] (i + 1) template_page = .ok (i + 1) dx s q) := by
  refine ⟨by simp [analyser_batch, List.enum_length], ?_⟩
  intro i h
  refine ⟨?_, ?_, ?_⟩
  · simp only [analyser_batch]
    rw [List.getElem?_map, List.getElem?_enum, List.getElem?_eq_getElem h]
    rfl
  · intro h0
    constructor
    · unfold analyser_page
      rw [h0]
    · unfold analyser_page
      rw [h0]
      rfl
  · intro e he
    unfold analyser_page
    rw [he]
    exact ⟨_, _, _, rfl⟩

theorem analyser_batch_spec_witness :
    (analyser_batch template_vide [page_sans_echelle, page_avec_echelle]).length = 2 ∧
    analyser_page page_sans_echelle 1 template_vide =
      .erreur 1 "Échelle non détectée" ∧
    questions_de (analyser_page page_sans_echelle 1 template_vide) = [] ∧
    (∃ dx s q, analyser_page page_avec_echelle 2 template_vide = .ok 2 dx s q) := by
  have h := analyser_batch_spec template_vide [page_sans_echelle, page_avec_echelle]
  have h0 := (h.2 0 (by decide)).2.1 rfl
  have h1 := (h.2 1 (by decide)).2.2 ⟨⟨100, 50⟩, ⟨1100, 50⟩⟩ rfl
  exact ⟨h.1, h0.1, h0.2, h1⟩
